import Mathlib

/-!
Shallow embedding of the `data-pipeline-scripts` repository: the cleaning
pipeline of `tax_data_cleaner.py` and the grouped aggregation of
`sales_analyzer.py`, together with proofs of the specified properties.

A dataframe is a list of rows; a missing cell (pandas `NaN`) is `none`.
Decimal amounts are rationals.  The date-parsing library call
(`pandas.to_datetime(..., errors="coerce")`) is a parameter
`parseDate : String → Option Date` of the pipeline; `isoParseDate` below
models the fragment of that library call needed to evaluate the
development on closed inputs.
-/

set_option autoImplicit false

/-- A calendar date, the result of successful date parsing. -/
structure Date where
  year : Nat
  month : Nat
  day : Nat
deriving DecidableEq

/-- A raw input row of the sales CSV (`tax_data_cleaner.py` §3 data model).
Every cell may be missing (`none` models pandas `NaN`). -/
structure Row where
  transaction_id : Option Int
  transaction_date : Option String
  product_id : Option String
  product_name : Option String
  sales_amount : Option ℚ
  state : Option String
  customer_id : Option Int
deriving DecidableEq

/-- A row of the cleaned output: the original columns (with
`transaction_date` converted to a parsed date) plus the four derived
columns added in steps 5-7 of `clean_sales_data`. -/
structure CleanRow where
  transaction_id : Option Int
  transaction_date : Date
  product_id : Option String
  product_name : Option String
  sales_amount : Option ℚ
  state : Option String
  customer_id : Option Int
  transaction_month : Nat × Nat
  transaction_quarter : Nat
  product_category : String
  tax_jurisdiction : String
deriving DecidableEq

/-- ASCII model of Python `str.upper()`. -/
def pyUpper (s : String) : String :=
  ⟨s.data.map Char.toUpper⟩

/-- ASCII model of Python `str.startswith(p)`. -/
def pyStartsWith (s p : String) : Bool :=
  p.data.isPrefixOf s.data

/-- Step 1 of `clean_sales_data`, per row:
`df['sales_amount'].fillna(0)` and `df['state'].fillna('UNKNOWN')`. -/
def fillna (r : Row) : Row :=
  { r with
    sales_amount := some (r.sales_amount.getD 0)
    state := some (r.state.getD "UNKNOWN") }

/-- Worker for `dedupF`: drop every element already seen (either in the
accumulated `seen` list or earlier in the traversal), keeping first
occurrences in order. -/
def dedupAux {α : Type} [DecidableEq α] (seen : List α) : List α → List α
  | [] => []
  | x :: xs => if x ∈ seen then dedupAux seen xs else x :: dedupAux (x :: seen) xs

/-- Step 2 of `clean_sales_data`: `df.drop_duplicates()` — remove every row
that is an exact duplicate of an earlier row, keeping the first occurrence. -/
def dedupF {α : Type} [DecidableEq α] (l : List α) : List α :=
  dedupAux [] l

/-- The duplicates-removed count logged by step 2:
`initial_count - len(df)`, taken on the dataframe after step 1. -/
def duplicatesRemoved (df : List Row) : Nat :=
  (df.map fillna).length - (dedupF (df.map fillna)).length

/-- Step 3 of `clean_sales_data`: the row-selection predicate of
`df[df['sales_amount'] >= 0]`.  In pandas a `NaN` amount compares as
`False`, so a missing amount is excluded. -/
def amountOK (r : Row) : Bool :=
  match r.sales_amount with
  | some q => decide (0 ≤ q)
  | none => false

/-- Step 4 of `clean_sales_data`, per row: `pd.to_datetime(..,
errors='coerce')` followed by `dropna(subset=['transaction_date'])` — a
row survives exactly when its date text is present and parses, and then
carries the parsed date. -/
def parseRowDate (parseDate : String → Option Date) (r : Row) :
    Option (Row × Date) :=
  match r.transaction_date with
  | none => none
  | some s => (parseDate s).map (fun d => (r, d))

/-- Whether a row survives the date-conversion drop of step 4. -/
def dateOK (parseDate : String → Option Date) (r : Row) : Bool :=
  match r.transaction_date with
  | none => false
  | some s => (parseDate s).isSome

/-- `df['transaction_date'].dt.quarter` for a month number 1-12. -/
def quarterOfMonth (m : Nat) : Nat :=
  (m + 2) / 3

/-- Step 6 of `clean_sales_data`: the inner `categorize_product` function.
`pd.isna(product_id)` is the `none` case; otherwise the id text is
upper-cased and matched against the three prefixes in order. -/
def categorize_product (product_id : Option String) : String :=
  match product_id with
  | none => "UNCATEGORIZED"
  | some pid =>
    let product_str := pyUpper pid
    if pyStartsWith product_str "ELE" then "ELECTRONICS"
    else if pyStartsWith product_str "CLO" then "CLOTHING"
    else if pyStartsWith product_str "GRO" then "GROCERIES"
    else "OTHER"

/-- Step 7 of `clean_sales_data`: the inner `determine_tax_jurisdiction`
function of the row's `state` and derived category.  Python's
`state in ['CA', 'NY', 'TX']` is false for a missing state. -/
def determine_tax_jurisdiction (state : Option String) (category : String) :
    String :=
  if (state = some "CA" ∨ state = some "NY" ∨ state = some "TX") ∧
      category ≠ "GROCERIES" then "STANDARD"
  else if category = "GROCERIES" then "GROCERY_EXEMPT"
  else "REDUCED_RATE"

/-- Steps 5-7 of `clean_sales_data`: attach the derived columns to a row
that survived date parsing. -/
def deriveRow (rd : Row × Date) : CleanRow :=
  { transaction_id := rd.1.transaction_id
    transaction_date := rd.2
    product_id := rd.1.product_id
    product_name := rd.1.product_name
    sales_amount := rd.1.sales_amount
    state := rd.1.state
    customer_id := rd.1.customer_id
    transaction_month := (rd.2.year, rd.2.month)
    transaction_quarter := quarterOfMonth rd.2.month
    product_category := categorize_product rd.1.product_id
    tax_jurisdiction :=
      determine_tax_jurisdiction rd.1.state (categorize_product rd.1.product_id) }

/-- Steps 1-3 of `clean_sales_data`: null handling, deduplication,
negative-amount filter, in the implemented order. -/
def cleanSteps123 (df : List Row) : List Row :=
  (dedupF (df.map fillna)).filter amountOK

/-- The whole transform of `clean_sales_data` (steps 1-7): the dataset
written to the output CSV and returned. -/
def clean_sales_data (parseDate : String → Option Date) (df : List Row) :
    List CleanRow :=
  ((cleanSteps123 df).filterMap (parseRowDate parseDate)).map deriveRow

/-- The analyzer's per-row amount (`sales_amount` column; pandas group
sums skip `NaN`). -/
def amt (c : CleanRow) : ℚ :=
  c.sales_amount.getD 0

/-- The analyzer's per-category `total_sales` aggregate:
`df.groupby('product_category')['sales_amount'].agg(['sum'])` at one
category key. -/
def totalSalesByCategory (df : List CleanRow) (cat : String) : ℚ :=
  ((df.filter (fun c => c.product_category = cat)).map amt).sum

/-- The group keys of the analyzer's group-by: the distinct categories
occurring in the cleaned dataset. -/
def categoriesOf (df : List CleanRow) : List String :=
  dedupF (df.map (fun c => c.product_category))

/-- The analyzer's overall total: `df['sales_amount'].sum()`. -/
def overallSales (df : List CleanRow) : ℚ :=
  (df.map amt).sum

/-- Split a character list at every dash, for the ISO date fragment of the
date parser. -/
def splitDash (l : List Char) : List (List Char) :=
  match l with
  | [] => [[]]
  | c :: cs =>
    match splitDash cs with
    | [] => [[]]
    | g :: gs => if c = '-' then [] :: g :: gs else (c :: g) :: gs

/-- Read a nonempty all-digit character list as a number. -/
def digitsToNatAux (acc : Nat) : List Char → Option Nat
  | [] => some acc
  | c :: cs =>
    if c.isDigit then digitsToNatAux (acc * 10 + (c.toNat - 48)) cs else none

/-- Read a nonempty all-digit character list as a number (`none` on an
empty or non-digit input). -/
def digitsToNat (l : List Char) : Option Nat :=
  match l with
  | [] => none
  | _ :: _ => digitsToNatAux 0 l

/-- Modelled from the library call `pandas.to_datetime(..., errors="coerce")`,
restricted to ISO-like `YYYY-MM-DD` texts: the fragment of the parser the
repository exercises.  As in pandas, month and day need not be zero-padded
("2024-1-15" parses the same as "2024-01-15"), so parsing is not injective. -/
def isoParseDate (s : String) : Option Date :=
  match splitDash s.data with
  | [y, m, d] =>
    match digitsToNat y, digitsToNat m, digitsToNat d with
    | some yn, some mn, some dn =>
      if 1 ≤ mn ∧ mn ≤ 12 ∧ 1 ≤ dn ∧ dn ≤ 31 then
        some ⟨yn, mn, dn⟩
      else none
    | _, _, _ => none
  | _ => none

/-- A date is a valid calendar bucket: month 1-12, day 1-31. -/
def validDate (d : Date) : Bool :=
  decide (1 ≤ d.month ∧ d.month ≤ 12 ∧ 1 ≤ d.day ∧ d.day ≤ 31)

/-- Step 1 (null handling) re-applied to a row of the cleaned output, as
when the cleaner is re-run on its own output file. -/
def fillnaC (c : CleanRow) : CleanRow :=
  { c with
    sales_amount := some (c.sales_amount.getD 0)
    state := some (c.state.getD "UNKNOWN") }

/-- Step 3 (negative-amount filter) re-applied to a row of the cleaned
output. -/
def amountOKC (c : CleanRow) : Bool :=
  match c.sales_amount with
  | some q => decide (0 ≤ q)
  | none => false

/-- Steps 1-3 (null handling, deduplication, negative filter) re-applied
to the cleaned output of a prior run. -/
def steps123C (df : List CleanRow) : List CleanRow :=
  (dedupF (df.map fillnaC)).filter amountOKC

/-- The categorization rule exactly as the spec words it: match the
upper-cased three-character text prefix of the id, in order, first match
wins; a missing id is UNCATEGORIZED. -/
def categorize_claim (product_id : Option String) : String :=
  match product_id with
  | none => "UNCATEGORIZED"
  | some pid =>
    if (pid.data.take 3).map Char.toUpper = "ELE".data then "ELECTRONICS"
    else if (pid.data.take 3).map Char.toUpper = "CLO".data then "CLOTHING"
    else if (pid.data.take 3).map Char.toUpper = "GRO".data then "GROCERIES"
    else "OTHER"

/-- Steps 4-7 as applied after the (possibly permuted) row-level steps:
the date-conversion drop together with the derived columns. -/
def finalizeRows (parseDate : String → Option Date) (l : List Row) :
    List CleanRow :=
  (l.filterMap (parseRowDate parseDate)).map deriveRow

/-- The cleaning pipeline with steps 1 and 2 permuted: deduplication
before null handling, then the negative filter and date steps as
implemented. -/
def cleanDedupFirst (parseDate : String → Option Date) (df : List Row) :
    List CleanRow :=
  finalizeRows parseDate (((dedupF df).map fillna).filter amountOK)

/-- The seven-row demonstration dataset of `generate_sample_data`
(decimal amounts written as explicit fractions). -/
def sample_data : List Row :=
  [ { transaction_id := some 1001, transaction_date := some "2024-01-15",
      product_id := some "ELE-1001", product_name := some "Smartphone",
      sales_amount := some (mkRat 79999 100), state := some "CA",
      customer_id := some 201 },
    { transaction_id := some 1002, transaction_date := some "2024-01-15",
      product_id := some "CLO-2001", product_name := some "T-Shirt",
      sales_amount := some (mkRat 2999 100), state := some "NY",
      customer_id := some 202 },
    { transaction_id := some 1003, transaction_date := some "2024-01-16",
      product_id := some "ELE-1002", product_name := some "Laptop",
      sales_amount := some (mkRat 129999 100), state := some "TX",
      customer_id := some 203 },
    { transaction_id := some 1004, transaction_date := some "2024-01-17",
      product_id := some "GRO-3001", product_name := some "Apples",
      sales_amount := some (mkRat 599 100), state := some "CA",
      customer_id := some 204 },
    { transaction_id := some 1005, transaction_date := some "2024-01-18",
      product_id := some "ELE-1001", product_name := some "Smartphone",
      sales_amount := some (mkRat 79999 100), state := some "AZ",
      customer_id := some 205 },
    { transaction_id := some 1006, transaction_date := some "2024-01-18",
      product_id := some "OTHER-999", product_name := some "Misc Item",
      sales_amount := some (mkRat 1550 100), state := some "NY",
      customer_id := some 206 },
    { transaction_id := some 1007, transaction_date := some "2024-01-19",
      product_id := some "ELE-1003", product_name := some "Tablet",
      sales_amount := some (mkRat 45999 100), state := some "CA",
      customer_id := some 207 } ]

/-- A concrete row whose date text is the padded ISO form. -/
def exRowDateA : Row :=
  { transaction_id := some 1, transaction_date := some "2024-01-15",
    product_id := some "ELE-1001", product_name := some "Smartphone",
    sales_amount := some 800, state := some "CA", customer_id := some 201 }

/-- The same transaction with the month of its date text unpadded: a
different raw row that parses to the same date. -/
def exRowDateB : Row :=
  { exRowDateA with transaction_date := some "2024-1-15" }

/-- A two-row dataset whose rows differ only in the textual form of the
same date. -/
def exDFdates : List Row :=
  [exRowDateA, exRowDateB]

/-- The cleaned row both rows of `exDFdates` become. -/
def exCleanDup : CleanRow :=
  { transaction_id := some 1, transaction_date := ⟨2024, 1, 15⟩,
    product_id := some "ELE-1001", product_name := some "Smartphone",
    sales_amount := some 800, state := some "CA", customer_id := some 201,
    transaction_month := (2024, 1), transaction_quarter := 1,
    product_category := "ELECTRONICS", tax_jurisdiction := "STANDARD" }

/-- A concrete row with a missing `sales_amount`. -/
def exRowNullAmt : Row :=
  { transaction_id := some 2, transaction_date := some "2024-01-15",
    product_id := some "CLO-2001", product_name := some "T-Shirt",
    sales_amount := none, state := some "NY", customer_id := some 202 }

/-- The same transaction with the amount written as an explicit 0. -/
def exRowZeroAmt : Row :=
  { exRowNullAmt with sales_amount := some 0 }

/-- A two-row dataset whose rows differ only in `NaN` versus `0` in
`sales_amount`. -/
def exDFnull : List Row :=
  [exRowNullAmt, exRowZeroAmt]

/-- The single cleaned row the implemented pipeline produces from
`exDFnull`. -/
def exCleanNull : CleanRow :=
  { transaction_id := some 2, transaction_date := ⟨2024, 1, 15⟩,
    product_id := some "CLO-2001", product_name := some "T-Shirt",
    sales_amount := some 0, state := some "NY", customer_id := some 202,
    transaction_month := (2024, 1), transaction_quarter := 1,
    product_category := "CLOTHING", tax_jurisdiction := "STANDARD" }

/-- A concrete row whose date text does not parse. -/
def exRowBadDate : Row :=
  { transaction_id := some 3, transaction_date := some "not-a-date",
    product_id := some "GRO-3001", product_name := some "Apples",
    sales_amount := some (mkRat 599 100), state := some "CA",
    customer_id := some 204 }

section DedupLemmas

variable {α : Type} [DecidableEq α]

theorem mem_dedupAux {a : α} : ∀ {seen l : List α},
    a ∈ dedupAux seen l ↔ a ∈ l ∧ a ∉ seen := by
  intro seen l
  induction l generalizing seen with
  | nil => simp [dedupAux]
  | cons x xs ih =>
    by_cases hx : x ∈ seen
    · simp only [dedupAux, if_pos hx, ih, List.mem_cons]
      constructor
      · rintro ⟨h1, h2⟩
        exact ⟨Or.inr h1, h2⟩
      · rintro ⟨h1 | h1, h2⟩
        · exact absurd (h1 ▸ hx) h2
        · exact ⟨h1, h2⟩
    · simp only [dedupAux, if_neg hx, List.mem_cons, ih]
      by_cases hax : a = x
      · subst hax; simp [hx]
      · simp [hax]

theorem nodup_dedupAux : ∀ (seen l : List α), (dedupAux seen l).Nodup := by
  intro seen l
  induction l generalizing seen with
  | nil => simp [dedupAux]
  | cons x xs ih =>
    by_cases hx : x ∈ seen
    · simpa [dedupAux, if_pos hx] using ih seen
    · simp only [dedupAux, if_neg hx, List.nodup_cons]
      refine ⟨fun hmem => ?_, ih (x :: seen)⟩
      exact (mem_dedupAux.mp hmem).2 (List.mem_cons_self x seen)

theorem sublist_dedupAux : ∀ (seen l : List α),
    List.Sublist (dedupAux seen l) l := by
  intro seen l
  induction l generalizing seen with
  | nil => simp [dedupAux]
  | cons x xs ih =>
    by_cases hx : x ∈ seen
    · simpa [dedupAux, if_pos hx] using List.Sublist.cons x (ih seen)
    · simpa [dedupAux, if_neg hx] using List.Sublist.cons₂ x (ih (x :: seen))

theorem dedupAux_congr : ∀ {s₁ s₂ : List α} (l : List α),
    (∀ x, x ∈ s₁ ↔ x ∈ s₂) → dedupAux s₁ l = dedupAux s₂ l := by
  intro s₁ s₂ l h
  induction l generalizing s₁ s₂ with
  | nil => simp [dedupAux]
  | cons x xs ih =>
    by_cases hx : x ∈ s₁
    · rw [dedupAux, dedupAux, if_pos hx, if_pos ((h x).mp hx)]
      exact ih h
    · rw [dedupAux, dedupAux, if_neg hx, if_neg (fun hc => hx ((h x).mpr hc))]
      refine congrArg (x :: ·) (ih fun y => ?_)
      simp only [List.mem_cons]
      exact or_congr Iff.rfl (h y)

theorem filter_dedupAux (p : α → Bool) : ∀ (l : List α) {s₁ s₂ : List α},
    (∀ x, p x = true → (x ∈ s₁ ↔ x ∈ s₂)) →
    (dedupAux s₁ l).filter p = dedupAux s₂ (l.filter p) := by
  intro l
  induction l with
  | nil => intro s₁ s₂ h; simp [dedupAux]
  | cons x xs ih =>
    intro s₁ s₂ h
    by_cases hp : p x = true
    · by_cases hx : x ∈ s₁
      · rw [dedupAux, if_pos hx, List.filter_cons, if_pos hp, dedupAux,
          if_pos ((h x hp).mp hx)]
        exact ih h
      · rw [dedupAux, if_neg hx, List.filter_cons, if_pos hp,
          List.filter_cons, if_pos hp, dedupAux,
          if_neg (fun hc => hx ((h x hp).mpr hc))]
        refine congrArg (x :: ·) (ih fun y hy => ?_)
        simp only [List.mem_cons]
        exact or_congr Iff.rfl (h y hy)
    · by_cases hx : x ∈ s₁
      · rw [dedupAux, if_pos hx, List.filter_cons, if_neg hp]
        exact ih h
      · have step : (dedupAux s₁ (x :: xs)).filter p
            = (dedupAux (x :: s₁) xs).filter p := by
          rw [dedupAux, if_neg hx, List.filter_cons, if_neg hp]
        rw [step, List.filter_cons, if_neg hp]
        refine ih fun y hy => ?_
        simp only [List.mem_cons]
        constructor
        · rintro (rfl | hmem)
          · exact absurd hy hp
          · exact (h y hy).mp hmem
        · intro hmem
          exact Or.inr ((h y hy).mpr hmem)

theorem filter_dedupF (p : α → Bool) (l : List α) :
    (dedupF l).filter p = dedupF (l.filter p) :=
  filter_dedupAux p l (fun _ _ => Iff.rfl)

theorem dedupAux_append_singleton (x : α) : ∀ (l seen : List α),
    dedupAux seen (l ++ [x]) =
      if x ∈ seen ∨ x ∈ l then dedupAux seen l else dedupAux seen l ++ [x] := by
  intro l
  induction l with
  | nil =>
    intro seen
    by_cases hx : x ∈ seen <;> simp [dedupAux, hx]
  | cons y ys ih =>
    intro seen
    by_cases hy : y ∈ seen
    · rw [List.cons_append, dedupAux, if_pos hy, ih seen, dedupAux, if_pos hy]
      have hcond : (x ∈ seen ∨ x ∈ ys) ↔ (x ∈ seen ∨ x ∈ y :: ys) := by
        constructor
        · rintro (h | h)
          · exact Or.inl h
          · exact Or.inr (List.mem_cons_of_mem y h)
        · rintro (h | h)
          · exact Or.inl h
          · rcases List.mem_cons.mp h with h | h
            · exact Or.inl (h ▸ hy)
            · exact Or.inr h
      exact if_congr hcond rfl rfl
    · rw [List.cons_append, dedupAux, if_neg hy, ih (y :: seen), dedupAux,
        if_neg hy]
      have hcond : (x ∈ y :: seen ∨ x ∈ ys) ↔ (x ∈ seen ∨ x ∈ y :: ys) := by
        simp only [List.mem_cons]
        tauto
      by_cases hx : x ∈ seen ∨ x ∈ y :: ys
      · rw [if_pos (hcond.mpr hx), if_pos hx]
      · rw [if_neg (fun hc => hx (hcond.mp hc)), if_neg hx, List.cons_append]

theorem dedupF_append_singleton (l : List α) (x : α) :
    dedupF (l ++ [x]) = if x ∈ l then dedupF l else dedupF l ++ [x] := by
  rw [dedupF, dedupAux_append_singleton, dedupF]
  by_cases hx : x ∈ l
  · rw [if_pos (Or.inr hx), if_pos hx]
  · rw [if_neg (by rintro (h | h); exact (List.not_mem_nil x) h; exact hx h),
      if_neg hx]

theorem dedupF_of_nodup : ∀ {l : List α}, l.Nodup → dedupF l = l := by
  have aux : ∀ (l seen : List α), l.Nodup → (∀ a ∈ l, a ∉ seen) →
      dedupAux seen l = l := by
    intro l
    induction l with
    | nil => intro seen _ _; rfl
    | cons x xs ih =>
      intro seen hnd hdisj
      rw [dedupAux, if_neg (hdisj x (List.mem_cons_self x xs))]
      refine congrArg (x :: ·) (ih (x :: seen) (List.nodup_cons.mp hnd).2 ?_)
      intro a ha hmem
      rcases List.mem_cons.mp hmem with h | h
      · exact (List.nodup_cons.mp hnd).1 (h ▸ ha)
      · exact hdisj a (List.mem_cons_of_mem x ha) h
  intro l hnd
  exact aux l [] hnd (fun a _ => List.not_mem_nil a)

end DedupLemmas

section SumLemmas

variable {α β M : Type} [DecidableEq α]

theorem dedupAux_cons_seen (k : α) : ∀ (l seen : List α),
    dedupAux (k :: seen) l =
      dedupAux seen (l.filter (fun y => !(decide (y = k)))) := by
  intro l
  induction l with
  | nil => intro seen; rfl
  | cons x xs ih =>
    intro seen
    by_cases hxk : x = k
    · subst hxk
      rw [dedupAux, if_pos (List.mem_cons_self x seen), List.filter_cons]
      simpa using ih seen
    · have hcond : (!(decide (x = k))) = true := by simp [hxk]
      by_cases hxs : x ∈ seen
      · rw [dedupAux, if_pos (List.mem_cons_of_mem k hxs), List.filter_cons,
          if_pos hcond, dedupAux, if_pos hxs]
        exact ih seen
      · have hnotin : x ∉ k :: seen := by
          intro hc
          rcases List.mem_cons.mp hc with h | h
          · exact hxk h
          · exact hxs h
        rw [dedupAux, if_neg hnotin, List.filter_cons, if_pos hcond,
          dedupAux, if_neg hxs]
        refine congrArg (x :: ·) ?_
        rw [@dedupAux_congr _ _ _ (k :: x :: seen) xs (by
          intro y
          simp only [List.mem_cons]
          tauto)]
        exact ih (x :: seen)

theorem sum_filter_split [AddCommMonoid M] (p : β → Bool) (f : β → M) :
    ∀ l : List β,
      (l.map f).sum =
        ((l.filter p).map f).sum + ((l.filter (fun x => !(p x))).map f).sum := by
  intro l
  induction l with
  | nil => simp
  | cons x xs ih =>
    by_cases hp : p x = true
    · simp only [List.map_cons, List.sum_cons, List.filter_cons, hp,
        Bool.not_true, Bool.false_eq_true, if_false, if_true, ih]
      rw [add_assoc]
    · rw [Bool.not_eq_true] at hp
      simp only [List.map_cons, List.sum_cons, List.filter_cons, hp,
        Bool.not_false, Bool.false_eq_true, if_false, if_true, ih]
      rw [add_left_comm]

theorem sum_groupby_aux [AddCommMonoid M] (key : β → α) (f : β → M) :
    ∀ (n : Nat) (l : List β), l.length ≤ n →
      ((dedupF (l.map key)).map
          (fun k => ((l.filter (fun x => decide (key x = k))).map f).sum)).sum
        = (l.map f).sum := by
  intro n
  induction n with
  | zero =>
    intro l hl
    have hnil : l = [] := List.eq_nil_of_length_eq_zero (Nat.le_zero.mp hl)
    subst hnil
    simp [dedupF, dedupAux]
  | succ n ih =>
    intro l hl
    cases l with
    | nil => simp [dedupF, dedupAux]
    | cons x xs =>
      have hxs : xs.length ≤ n := Nat.le_of_succ_le_succ hl
      set xsr := xs.filter (fun b => !(decide (key b = key x))) with hxsr
      have hlen : xsr.length ≤ n :=
        le_trans (List.length_filter_le _ xs) hxs
      have hkeys : dedupF ((x :: xs).map key)
          = key x :: dedupF (xsr.map key) := by
        rw [List.map_cons, dedupF, dedupAux, if_neg (List.not_mem_nil _),
          dedupAux_cons_seen, List.filter_map, dedupF, hxsr]
        rfl
      rw [hkeys, List.map_cons, List.sum_cons]
      have hhead : (((x :: xs).filter
            (fun b => decide (key b = key x))).map f).sum
          = f x + ((xs.filter (fun b => decide (key b = key x))).map f).sum := by
        rw [List.filter_cons]
        simp
      have htail : ∀ k ∈ dedupF (xsr.map key),
          (((x :: xs).filter (fun b => decide (key b = k))).map f).sum
            = ((xsr.filter (fun b => decide (key b = k))).map f).sum := by
        intro k hk
        have hkmem : k ∈ xsr.map key := (mem_dedupAux.mp hk).1
        rcases List.mem_map.mp hkmem with ⟨b, hb, hbk⟩
        have hbne : ¬ key b = key x := by
          have := (List.mem_filter.mp hb).2
          simpa using this
        have hkne : ¬ key x = k := fun hc => hbne (hbk ▸ hc ▸ rfl)
        rw [List.filter_cons]
        simp only [decide_eq_true_eq, if_neg hkne]
        refine congrArg (fun t => (List.map f t).sum) ?_
        rw [hxsr, List.filter_filter]
        refine (List.filter_congr fun b hb => ?_).symm
        have hkx : ¬ k = key x := fun hc => hkne hc.symm
        by_cases hbk2 : key b = k
        · simp [hbk2, hkx]
        · simp [hbk2]
      rw [List.map_congr_left htail, ih xsr hlen, hhead]
      rw [List.map_cons, List.sum_cons, add_assoc]
      refine congrArg (f x + ·) ?_
      rw [hxsr]
      exact (sum_filter_split (fun b => decide (key b = key x)) f xs).symm

theorem sum_groupby [AddCommMonoid M] (key : β → α) (f : β → M) (l : List β) :
    ((dedupF (l.map key)).map
        (fun k => ((l.filter (fun x => decide (key x = k))).map f).sum)).sum
      = (l.map f).sum :=
  sum_groupby_aux key f l.length l (Nat.le_refl _)

theorem sum_map_one : ∀ l : List β, (l.map (fun _ => (1 : Nat))).sum = l.length := by
  intro l
  induction l with
  | nil => rfl
  | cons x xs ih => simp [ih, Nat.add_comm]

theorem sum_count_dedupF (l : List α) :
    ((dedupF l).map (fun v => (l.filter (fun x => decide (x = v))).length)).sum
      = l.length := by
  have h := sum_groupby (fun x : α => x) (fun _ => (1 : Nat)) l
  rw [List.map_id', sum_map_one] at h
  rw [← h]
  refine congrArg List.sum (List.map_congr_left fun k _ => ?_)
  rw [sum_map_one]

end SumLemmas

section PipelineLemmas

theorem mem_dedupF {α : Type} [DecidableEq α] {a : α} {l : List α} :
    a ∈ dedupF l ↔ a ∈ l := by
  rw [dedupF, mem_dedupAux]
  simp

theorem pyStartsWith_upper_eq (pid p : String) :
    pyStartsWith (pyUpper pid) p = true ↔
      (pid.data.take p.data.length).map Char.toUpper = p.data := by
  show p.data.isPrefixOf (pid.data.map Char.toUpper) = true ↔ _
  rw [List.isPrefixOf_iff_prefix, List.prefix_iff_eq_take, ← List.map_take]
  exact eq_comm

theorem fillna_fields (r : Row) :
    (fillna r).sales_amount = some (r.sales_amount.getD 0) ∧
    (fillna r).state = some (r.state.getD "UNKNOWN") ∧
    (fillna r).transaction_id = r.transaction_id ∧
    (fillna r).transaction_date = r.transaction_date ∧
    (fillna r).product_id = r.product_id ∧
    (fillna r).product_name = r.product_name ∧
    (fillna r).customer_id = r.customer_id := by
  refine ⟨rfl, rfl, rfl, rfl, rfl, rfl, rfl⟩

theorem mem_cleanSteps123 {df : List Row} {r : Row}
    (h : r ∈ cleanSteps123 df) :
    amountOK r = true ∧ ∃ r₀ ∈ df, r = fillna r₀ := by
  rw [cleanSteps123] at h
  have h1 := List.mem_filter.mp h
  refine ⟨h1.2, ?_⟩
  have h2 : r ∈ df.map fillna := mem_dedupF.mp h1.1
  rcases List.mem_map.mp h2 with ⟨r₀, hr₀, hr⟩
  exact ⟨r₀, hr₀, hr.symm⟩

theorem mem_filterMap_parseRowDate {parseDate : String → Option Date}
    {l : List Row} {rd : Row × Date}
    (h : rd ∈ l.filterMap (parseRowDate parseDate)) :
    rd.1 ∈ l ∧ ∃ s, rd.1.transaction_date = some s ∧ parseDate s = some rd.2 := by
  rcases List.mem_filterMap.mp h with ⟨r, hr, hpr⟩
  rw [parseRowDate] at hpr
  rcases ht : r.transaction_date with _ | s
  · rw [ht] at hpr
    exact Option.noConfusion hpr
  · rw [ht] at hpr
    rcases Option.map_eq_some'.mp hpr with ⟨d, hd, hrd⟩
    have h1 : rd.1 = r := by rw [← hrd]
    have h2 : rd.2 = d := by rw [← hrd]
    subst h1
    exact ⟨hr, s, ht, h2 ▸ hd⟩

theorem categorize_product_total (pid : Option String) :
    categorize_product pid ∈
      ["ELECTRONICS", "CLOTHING", "GROCERIES", "OTHER", "UNCATEGORIZED"] := by
  cases pid with
  | none => simp [categorize_product]
  | some s =>
    by_cases h1 : pyStartsWith (pyUpper s) "ELE" = true
    · simp [categorize_product, h1]
    · by_cases h2 : pyStartsWith (pyUpper s) "CLO" = true
      · simp [categorize_product, h1, h2]
      · by_cases h3 : pyStartsWith (pyUpper s) "GRO" = true
        · simp [categorize_product, h1, h2, h3]
        · simp [categorize_product, h1, h2, h3]

theorem determine_tax_jurisdiction_total (st : Option String) (cat : String) :
    determine_tax_jurisdiction st cat ∈
      ["STANDARD", "GROCERY_EXEMPT", "REDUCED_RATE"] := by
  rw [determine_tax_jurisdiction]
  split
  · simp
  · split <;> simp

theorem dateOK_false_iff (parseDate : String → Option Date) (r : Row) :
    dateOK parseDate r = false ↔ parseRowDate parseDate r = none := by
  rw [dateOK, parseRowDate]
  rcases r.transaction_date with _ | s
  · simp
  · rcases parseDate s with _ | d <;> simp

theorem filterMap_filter_dateOK (parseDate : String → Option Date) :
    ∀ l : List Row,
      (l.filter (dateOK parseDate)).filterMap (parseRowDate parseDate)
        = l.filterMap (parseRowDate parseDate) := by
  intro l
  induction l with
  | nil => rfl
  | cons r rs ih =>
    by_cases h : dateOK parseDate r = true
    · rw [List.filter_cons, if_pos h, List.filterMap_cons, List.filterMap_cons]
      rcases parseRowDate parseDate r with _ | rd
      · exact ih
      · rw [ih]
    · have hfalse : dateOK parseDate r = false := Bool.eq_false_iff.mpr h
      rw [List.filter_cons, if_neg h, List.filterMap_cons,
        (dateOK_false_iff parseDate r).mp hfalse]
      exact ih

theorem filter_comm' {α : Type} (p q : α → Bool) (l : List α) :
    (l.filter p).filter q = (l.filter q).filter p := by
  rw [List.filter_filter, List.filter_filter]
  exact List.filter_congr fun a _ => Bool.and_comm (q a) (p a)

theorem isoParseDate_valid : ∀ (s : String) (d : Date),
    isoParseDate s = some d → validDate d = true := by
  intro s d h
  rw [isoParseDate] at h
  split at h
  · split at h
    · split at h
      · rename_i hcond
        injection h with h
        subst h
        exact decide_eq_true hcond
      · exact Option.noConfusion h
    · exact Option.noConfusion h
  · exact Option.noConfusion h

end PipelineLemmas

section MoreHelpers

theorem nodup_cleanSteps123 (df : List Row) : (cleanSteps123 df).Nodup :=
  (nodup_dedupAux [] (df.map fillna)).filter amountOK

theorem amountOK_iff (r : Row) :
    amountOK r = true ↔ ∃ q, r.sales_amount = some q ∧ 0 ≤ q := by
  rcases h : r.sales_amount with _ | q
  · simp [amountOK, h]
  · simp [amountOK, h]

theorem amountOKC_iff (c : CleanRow) :
    amountOKC c = true ↔ ∃ q, c.sales_amount = some q ∧ 0 ≤ q := by
  rcases h : c.sales_amount with _ | q
  · simp [amountOKC, h]
  · simp [amountOKC, h]

theorem fillnaC_of_some : ∀ (c : CleanRow), c.sales_amount.isSome = true →
    c.state.isSome = true → fillnaC c = c := by
  intro c h1 h2
  cases c with
  | mk tid tdate pid pname samt st cid tm tq pc tj =>
    rcases samt with _ | q
    · exact Bool.noConfusion h1
    · rcases st with _ | s0
      · exact Bool.noConfusion h2
      · rfl

theorem dateOK_eq_true_of_parse {parseDate : String → Option Date}
    {r : Row} {s : String} {d : Date} (hs : r.transaction_date = some s)
    (hd : parseDate s = some d) : dateOK parseDate r = true := by
  simp [dateOK, hs, hd]

theorem dateOK_fillna (parseDate : String → Option Date) (r : Row) :
    dateOK parseDate (fillna r) = dateOK parseDate r := rfl

theorem clean_row_facts (parseDate : String → Option Date) (df : List Row)
    (c : CleanRow) (hc : c ∈ clean_sales_data parseDate df) :
    c.sales_amount.isSome = true ∧ 0 ≤ amt c ∧ c.state.isSome = true ∧
    c.product_category ∈
      ["ELECTRONICS", "CLOTHING", "GROCERIES", "OTHER", "UNCATEGORIZED"] ∧
    c.tax_jurisdiction ∈ ["STANDARD", "GROCERY_EXEMPT", "REDUCED_RATE"] ∧
    ∃ s, c.transaction_date ∈ parseDate s := by
  rw [clean_sales_data] at hc
  rcases List.mem_map.mp hc with ⟨rd, hrd, hder⟩
  rcases mem_filterMap_parseRowDate hrd with ⟨hmem, s, hs, hparse⟩
  rcases mem_cleanSteps123 hmem with ⟨hamt, r₀, _, hfill⟩
  rcases (amountOK_iff rd.1).mp hamt with ⟨q, hq, hq0⟩
  subst hder
  refine ⟨?_, ?_, ?_, ?_, ?_, ?_⟩
  · show rd.1.sales_amount.isSome = true
    rw [hq]
    rfl
  · show (0 : ℚ) ≤ (deriveRow rd).sales_amount.getD 0
    show (0 : ℚ) ≤ rd.1.sales_amount.getD 0
    rw [hq]
    exact hq0
  · show rd.1.state.isSome = true
    rw [hfill]
    rfl
  · exact categorize_product_total rd.1.product_id
  · exact determine_tax_jurisdiction_total rd.1.state _
  · exact ⟨s, by rw [hparse]; exact rfl⟩

theorem categorize_product_eq_claim (pid : Option String) :
    categorize_product pid = categorize_claim pid := by
  cases pid with
  | none => rfl
  | some s =>
    have hele : pyStartsWith (pyUpper s) "ELE" = true ↔
        (s.data.take 3).map Char.toUpper = "ELE".data :=
      pyStartsWith_upper_eq s "ELE"
    have hclo : pyStartsWith (pyUpper s) "CLO" = true ↔
        (s.data.take 3).map Char.toUpper = "CLO".data :=
      pyStartsWith_upper_eq s "CLO"
    have hgro : pyStartsWith (pyUpper s) "GRO" = true ↔
        (s.data.take 3).map Char.toUpper = "GRO".data :=
      pyStartsWith_upper_eq s "GRO"
    show (if pyStartsWith (pyUpper s) "ELE" then "ELECTRONICS"
      else if pyStartsWith (pyUpper s) "CLO" then "CLOTHING"
      else if pyStartsWith (pyUpper s) "GRO" then "GROCERIES"
      else "OTHER") =
        (if (s.data.take 3).map Char.toUpper = "ELE".data then "ELECTRONICS"
        else if (s.data.take 3).map Char.toUpper = "CLO".data then "CLOTHING"
        else if (s.data.take 3).map Char.toUpper = "GRO".data then "GROCERIES"
        else "OTHER")
    by_cases h1 : (s.data.take 3).map Char.toUpper = "ELE".data
    · rw [if_pos (hele.mpr h1), if_pos h1]
    · rw [if_neg (fun hc => h1 (hele.mp hc)), if_neg h1]
      by_cases h2 : (s.data.take 3).map Char.toUpper = "CLO".data
      · rw [if_pos (hclo.mpr h2), if_pos h2]
      · rw [if_neg (fun hc => h2 (hclo.mp hc)), if_neg h2]
        by_cases h3 : (s.data.take 3).map Char.toUpper = "GRO".data
        · rw [if_pos (hgro.mpr h3), if_pos h3]
        · rw [if_neg (fun hc => h3 (hgro.mp hc)), if_neg h3]

end MoreHelpers

/-- C1: every row of the dataset returned by `clean_sales_data` has a
present nonnegative `sales_amount`, a successfully parsed valid
`transaction_date`, and non-null `product_category` and
`tax_jurisdiction` drawn from their fixed enumerations.  Amended:
freedom from exact duplicates holds for the dataset as deduplicated
before date conversion (`cleanSteps123`); the final output can repeat a
row when two raw rows spell the same date differently, because
`drop_duplicates` runs on the raw date text (see the counterexample). -/
theorem C1_cleaned_invariants (parseDate : String → Option Date)
    (df : List Row)
    (hvalid : ∀ s d, parseDate s = some d → validDate d = true) :
    (cleanSteps123 df).Nodup ∧
    ∀ c ∈ clean_sales_data parseDate df,
      c.sales_amount.isSome = true ∧ 0 ≤ amt c ∧ c.state.isSome = true ∧
      validDate c.transaction_date = true ∧
      c.product_category ∈
        ["ELECTRONICS", "CLOTHING", "GROCERIES", "OTHER", "UNCATEGORIZED"] ∧
      c.tax_jurisdiction ∈ ["STANDARD", "GROCERY_EXEMPT", "REDUCED_RATE"] := by
  refine ⟨nodup_cleanSteps123 df, fun c hc => ?_⟩
  rcases clean_row_facts parseDate df c hc with ⟨h1, h2, h3, h4, h5, s, hs⟩
  exact ⟨h1, h2, h3, hvalid s _ (Option.mem_def.mp hs), h4, h5⟩

/-- C1 witness: the invariants evaluated on a concrete cleaned row. -/
theorem C1_cleaned_invariants_witness :
    exCleanDup ∈ clean_sales_data isoParseDate [exRowDateA] ∧
    (exCleanDup.sales_amount.isSome = true ∧ 0 ≤ amt exCleanDup ∧
      exCleanDup.state.isSome = true ∧
      validDate exCleanDup.transaction_date = true ∧
      exCleanDup.product_category ∈
        ["ELECTRONICS", "CLOTHING", "GROCERIES", "OTHER", "UNCATEGORIZED"] ∧
      exCleanDup.tax_jurisdiction ∈
        ["STANDARD", "GROCERY_EXEMPT", "REDUCED_RATE"]) :=
  ⟨by decide,
    (C1_cleaned_invariants isoParseDate [exRowDateA] isoParseDate_valid).2
      exCleanDup (by decide)⟩

/-- C1 counterexample: two input rows that differ only in the spelling of
the same date ("2024-01-15" versus "2024-1-15") both survive
deduplication and clean to two exactly identical output rows, so the
output is not free of exact duplicates. -/
theorem C1_duplicate_output_counterexample :
    clean_sales_data isoParseDate exDFdates = [exCleanDup, exCleanDup] ∧
    (clean_sales_data isoParseDate exDFdates).Nodup = False :=
  ⟨by decide, eq_false (by decide)⟩

/-- C2: categorization is a deterministic total function of `product_id`:
a missing id gives UNCATEGORIZED; otherwise the upper-cased
three-character prefix is matched in order (ELE, CLO, GRO,
case-insensitively, first match wins) and anything else gives OTHER.
`categorize_claim` is the rule exactly as the spec words it. -/
theorem C2_categorization_total_function :
    (∀ pid : Option String, categorize_product pid = categorize_claim pid) ∧
    categorize_product none = "UNCATEGORIZED" ∧
    ∀ s : String, categorize_product (some s) ∈
      ["ELECTRONICS", "CLOTHING", "GROCERIES", "OTHER"] := by
  refine ⟨categorize_product_eq_claim, rfl, fun s => ?_⟩
  by_cases h1 : pyStartsWith (pyUpper s) "ELE" = true
  · simp [categorize_product, h1]
  · by_cases h2 : pyStartsWith (pyUpper s) "CLO" = true
    · simp [categorize_product, h1, h2]
    · by_cases h3 : pyStartsWith (pyUpper s) "GRO" = true
      · simp [categorize_product, h1, h2, h3]
      · simp [categorize_product, h1, h2, h3]

/-- C3: `tax_jurisdiction` is a pure function of (state, category): one of
CA, NY, TX with a non-grocery category gives STANDARD, the GROCERIES
category always gives GROCERY_EXEMPT, and any other state with a
non-grocery category gives REDUCED_RATE; in particular product id
"GRO-3001" with state "CA" yields GROCERIES and GROCERY_EXEMPT. -/
theorem C3_tax_jurisdiction_rule :
    (∀ (st : Option String) (cat : String),
      ((st = some "CA" ∨ st = some "NY" ∨ st = some "TX") →
        cat ≠ "GROCERIES" → determine_tax_jurisdiction st cat = "STANDARD") ∧
      (cat = "GROCERIES" →
        determine_tax_jurisdiction st cat = "GROCERY_EXEMPT") ∧
      (¬(st = some "CA" ∨ st = some "NY" ∨ st = some "TX") →
        cat ≠ "GROCERIES" →
        determine_tax_jurisdiction st cat = "REDUCED_RATE")) ∧
    categorize_product (some "GRO-3001") = "GROCERIES" ∧
    determine_tax_jurisdiction (some "CA")
      (categorize_product (some "GRO-3001")) = "GROCERY_EXEMPT" := by
  refine ⟨fun st cat => ⟨?_, ?_, ?_⟩, by decide, by decide⟩
  · intro h1 h2
    rw [determine_tax_jurisdiction, if_pos ⟨h1, h2⟩]
  · intro hg
    rw [determine_tax_jurisdiction, if_neg (fun hc => hc.2 hg), if_pos hg]
  · intro h1 h2
    rw [determine_tax_jurisdiction, if_neg (fun hc => h1 hc.1), if_neg h2]

/-- C3 witness: the three branches of the jurisdiction rule evaluated on
concrete states and categories. -/
theorem C3_tax_jurisdiction_rule_witness :
    determine_tax_jurisdiction (some "CA") "ELECTRONICS" = "STANDARD" ∧
    determine_tax_jurisdiction (some "GA") "GROCERIES" = "GROCERY_EXEMPT" ∧
    determine_tax_jurisdiction (some "AZ") "ELECTRONICS" = "REDUCED_RATE" :=
  ⟨(C3_tax_jurisdiction_rule.1 (some "CA") "ELECTRONICS").1 (Or.inl rfl)
      (by decide),
    (C3_tax_jurisdiction_rule.1 (some "GA") "GROCERIES").2.1 rfl,
    (C3_tax_jurisdiction_rule.1 (some "AZ") "ELECTRONICS").2.2 (by decide)
      (by decide)⟩

/-- C4 (amended): re-applying steps 1-3 to the output of a prior run
changes nothing, provided that output is free of exact duplicates: null
handling and the negative filter are always no-ops on cleaned rows, and
deduplication is a no-op exactly when the output has no duplicates —
which can fail only through the date-text collapse of the C1
counterexample. -/
theorem C4_idempotent_amended (parseDate : String → Option Date)
    (df : List Row) :
    (clean_sales_data parseDate df).map fillnaC
        = clean_sales_data parseDate df ∧
    (clean_sales_data parseDate df).filter amountOKC
        = clean_sales_data parseDate df ∧
    ((clean_sales_data parseDate df).Nodup →
      steps123C (clean_sales_data parseDate df)
        = clean_sales_data parseDate df) := by
  have hmap : (clean_sales_data parseDate df).map fillnaC
      = clean_sales_data parseDate df := by
    have h : (clean_sales_data parseDate df).map fillnaC
        = (clean_sales_data parseDate df).map (fun c => c) :=
      List.map_congr_left (fun c hc => by
        rcases clean_row_facts parseDate df c hc with ⟨h1, _, h3, _⟩
        exact fillnaC_of_some c h1 h3)
    rw [h, List.map_id']
  have hfil : (clean_sales_data parseDate df).filter amountOKC
      = clean_sales_data parseDate df := by
    rw [List.filter_eq_self]
    intro c hc
    rcases clean_row_facts parseDate df c hc with ⟨h1, h2, _⟩
    rcases Option.isSome_iff_exists.mp h1 with ⟨q, hq⟩
    refine (amountOKC_iff c).mpr ⟨q, hq, ?_⟩
    have hamt : amt c = q := by rw [amt, hq]; rfl
    rw [← hamt]
    exact h2
  refine ⟨hmap, hfil, fun hnd => ?_⟩
  rw [steps123C, hmap, dedupF_of_nodup hnd, hfil]

/-- C4 witness: idempotence of steps 1-3 on the cleaned sample dataset. -/
theorem C4_idempotent_amended_witness :
    (clean_sales_data isoParseDate sample_data).Nodup ∧
    steps123C (clean_sales_data isoParseDate sample_data)
      = clean_sales_data isoParseDate sample_data :=
  ⟨by decide, (C4_idempotent_amended isoParseDate sample_data).2.2 (by decide)⟩

/-- C4 counterexample: on the date-spelling dataset the prior run outputs
two identical rows, and re-applying steps 1-3 removes one of them, so
re-cleaning does change the dataset. -/
theorem C4_not_idempotent_counterexample :
    clean_sales_data isoParseDate exDFdates = [exCleanDup, exCleanDup] ∧
    steps123C (clean_sales_data isoParseDate exDFdates) = [exCleanDup] ∧
    (clean_sales_data isoParseDate exDFdates).length = 2 ∧
    (steps123C (clean_sales_data isoParseDate exDFdates)).length = 1 :=
  ⟨by decide, by decide, by decide, by decide⟩

/-- C5: on any cleaned dataset, the per-category `total_sales` aggregates
of the analyzer's group-by sum to the overall `sales_amount` total. -/
theorem C5_category_totals_sum (df : List CleanRow) :
    ((categoriesOf df).map (totalSalesByCategory df)).sum = overallSales df := by
  rw [categoriesOf, overallSales]
  exact sum_groupby (fun c => c.product_category) amt df

/-- C6: deduplication removes exactly the rows that equal an earlier row
(appending a row removes it precisely when it already occurs), keeps one
representative per group of identical rows in first-occurrence order
(no-duplicate result, same membership, sublist of the input), the kept
representatives' occurrence counts partition the input, and the reported
duplicates-removed count plus the surviving row count equals the row
count before deduplication. -/
theorem C6_dedup_removes_exactly_duplicates (l df : List Row) :
    (∀ x : Row, dedupF (l ++ [x])
        = if x ∈ l then dedupF l else dedupF l ++ [x]) ∧
    (dedupF l).Nodup ∧
    (∀ x : Row, x ∈ dedupF l ↔ x ∈ l) ∧
    List.Sublist (dedupF l) l ∧
    ((dedupF l).map
        (fun v => (l.filter (fun x => decide (x = v))).length)).sum
      = l.length ∧
    duplicatesRemoved df + (dedupF (df.map fillna)).length
      = (df.map fillna).length := by
  refine ⟨dedupF_append_singleton l, nodup_dedupAux [] l,
    fun x => mem_dedupF, sublist_dedupAux [] l, sum_count_dedupF l, ?_⟩
  rw [duplicatesRemoved]
  exact Nat.sub_add_cancel (List.Sublist.length_le (sublist_dedupAux [] _))

/-- C7: cleaning is a total function (the embedding returns a value on
every input), every row surviving the date-conversion step has a date
text that parses, null handling does not change whether a row's date
parses, and therefore an input row whose date fails to parse is absent
from the cleaned output entirely — dropped silently, with only
aggregate counts reported. -/
theorem C7_unparseable_dates_dropped (parseDate : String → Option Date)
    (df : List Row) :
    (((cleanSteps123 df).filterMap (parseRowDate parseDate)).map
        Prod.fst).all (dateOK parseDate) = true ∧
    (∀ r : Row, dateOK parseDate (fillna r) = dateOK parseDate r) ∧
    (∀ r : Row, dateOK parseDate r = false →
      ∀ rd ∈ (cleanSteps123 df).filterMap (parseRowDate parseDate),
        (decide (rd.1 = r) || decide (rd.1 = fillna r)) = false) := by
  have hall : ∀ rd ∈ (cleanSteps123 df).filterMap (parseRowDate parseDate),
      dateOK parseDate rd.1 = true := by
    intro rd hrd
    rcases mem_filterMap_parseRowDate hrd with ⟨_, s, hs, hparse⟩
    exact dateOK_eq_true_of_parse hs hparse
  refine ⟨?_, fun r => rfl, ?_⟩
  · rw [List.all_eq_true]
    intro r hr
    rcases List.mem_map.mp hr with ⟨rd, hrd, hfst⟩
    subst hfst
    exact hall rd hrd
  · intro r hbad rd hrd
    have hok := hall rd hrd
    have h1 : ¬ rd.1 = r := by
      intro hc
      rw [hc, hbad] at hok
      exact Bool.noConfusion hok
    have h2 : ¬ rd.1 = fillna r := by
      intro hc
      rw [hc, dateOK_fillna, hbad] at hok
      exact Bool.noConfusion hok
    rw [decide_eq_false h1, decide_eq_false h2]
    rfl

/-- C7 witness: a concrete row with an unparseable date is distinct from
every survivor of the date-conversion step. -/
theorem C7_unparseable_dates_dropped_witness :
    (decide ((exRowDateA, (⟨2024, 1, 15⟩ : Date)).1 = exRowBadDate)
      || decide ((exRowDateA, (⟨2024, 1, 15⟩ : Date)).1
          = fillna exRowBadDate)) = false :=
  (C7_unparseable_dates_dropped isoParseDate [exRowDateA, exRowBadDate]).2.2
    exRowBadDate (by decide) (exRowDateA, ⟨2024, 1, 15⟩) (by decide)

/-- C8 (amended): after null handling, the remaining row-level steps —
deduplication, the negative-amount filter and the date-parse drop — can
be permuted in any of the six orders without changing the final cleaned
dataset; moving null handling after deduplication, however, can change
the final content (see the counterexample). -/
theorem C8_step_order_amended (parseDate : String → Option Date)
    (df : List Row) :
    (finalizeRows parseDate
        (((dedupF (df.map fillna)).filter amountOK).filter
          (dateOK parseDate))
      = clean_sales_data parseDate df) ∧
    (finalizeRows parseDate
        (((dedupF (df.map fillna)).filter (dateOK parseDate)).filter
          amountOK)
      = clean_sales_data parseDate df) ∧
    (finalizeRows parseDate
        ((dedupF ((df.map fillna).filter amountOK)).filter
          (dateOK parseDate))
      = clean_sales_data parseDate df) ∧
    (finalizeRows parseDate
        (dedupF (((df.map fillna).filter amountOK).filter
          (dateOK parseDate)))
      = clean_sales_data parseDate df) ∧
    (finalizeRows parseDate
        ((dedupF ((df.map fillna).filter (dateOK parseDate))).filter
          amountOK)
      = clean_sales_data parseDate df) ∧
    (finalizeRows parseDate
        (dedupF (((df.map fillna).filter (dateOK parseDate)).filter
          amountOK))
      = clean_sales_data parseDate df) := by
  have hfinT : ∀ l : List Row,
      finalizeRows parseDate (l.filter (dateOK parseDate))
        = finalizeRows parseDate l := by
    intro l
    rw [finalizeRows, finalizeRows, filterMap_filter_dateOK]
  have h1 : finalizeRows parseDate
      (((dedupF (df.map fillna)).filter amountOK).filter (dateOK parseDate))
      = clean_sales_data parseDate df := hfinT _
  refine ⟨h1, ?_, ?_, ?_, ?_, ?_⟩
  · rw [filter_comm']
    exact h1
  · rw [← filter_dedupF]
    exact h1
  · rw [← filter_dedupF, ← filter_dedupF]
    exact h1
  · rw [← filter_dedupF, filter_comm']
    exact h1
  · rw [← filter_dedupF, ← filter_dedupF, filter_comm']
    exact h1

/-- C8 counterexample: on two rows that differ only in a missing versus
zero `sales_amount`, running deduplication before null handling yields a
two-row final dataset where the implemented order yields one row, so
permuting steps 1 and 2 changes the final content, not just the counts. -/
theorem C8_order_matters_counterexample :
    clean_sales_data isoParseDate exDFnull = [exCleanNull] ∧
    cleanDedupFirst isoParseDate exDFnull = [exCleanNull, exCleanNull] ∧
    (clean_sales_data isoParseDate exDFnull).length = 1 ∧
    (cleanDedupFirst isoParseDate exDFnull).length = 2 :=
  ⟨by decide, by decide, by decide, by decide⟩

/-- C9: null handling maps a missing `sales_amount` to 0 and a missing
`state` to "UNKNOWN", keeps present values of those two columns, and
changes no other field of any row. -/
theorem C9_null_handling (r : Row) :
    (r.sales_amount = none → (fillna r).sales_amount = some 0) ∧
    (∀ q, r.sales_amount = some q → (fillna r).sales_amount = some q) ∧
    (r.state = none → (fillna r).state = some "UNKNOWN") ∧
    (∀ st, r.state = some st → (fillna r).state = some st) ∧
    (fillna r).transaction_id = r.transaction_id ∧
    (fillna r).transaction_date = r.transaction_date ∧
    (fillna r).product_id = r.product_id ∧
    (fillna r).product_name = r.product_name ∧
    (fillna r).customer_id = r.customer_id := by
  refine ⟨fun h => ?_, fun q h => ?_, fun h => ?_, fun st h => ?_,
    rfl, rfl, rfl, rfl, rfl⟩
  · show some (r.sales_amount.getD 0) = some 0
    rw [h]
    rfl
  · show some (r.sales_amount.getD 0) = some q
    rw [h]
    rfl
  · show some (r.state.getD "UNKNOWN") = some "UNKNOWN"
    rw [h]
    rfl
  · show some (r.state.getD "UNKNOWN") = some st
    rw [h]
    rfl

/-- C9 witness: null handling evaluated on a row with a missing amount
and a present state. -/
theorem C9_null_handling_witness :
    (fillna exRowNullAmt).sales_amount = some 0 ∧
    (fillna exRowNullAmt).state = some "NY" :=
  ⟨(C9_null_handling exRowNullAmt).1 rfl,
    (C9_null_handling exRowNullAmt).2.2.2.1 "NY" rfl⟩

/-- C10: because null handling runs before deduplication, two rows that
differ only in a missing versus explicit-default value (`NaN` versus 0
in `sales_amount`, or `NaN` versus "UNKNOWN" in `state`) collapse to a
single row and are counted in the duplicates-removed total. -/
theorem C10_null_fill_then_collapse (r : Row) :
    (r.sales_amount = none →
      dedupF ([r, { r with sales_amount := some 0 }].map fillna)
          = [fillna r] ∧
      duplicatesRemoved [r, { r with sales_amount := some 0 }] = 1) ∧
    (r.state = none →
      dedupF ([r, { r with state := some "UNKNOWN" }].map fillna)
          = [fillna r] ∧
      duplicatesRemoved [r, { r with state := some "UNKNOWN" }] = 1) := by
  have hpair : ∀ x : Row, dedupF [x, x] = [x] := by
    intro x
    rw [dedupF, dedupAux, if_neg (List.not_mem_nil _), dedupAux,
      if_pos (List.mem_cons_self _ _), dedupAux]
  constructor
  · intro h
    have hfe : fillna { r with sales_amount := some 0 } = fillna r := by
      rw [fillna, fillna, h]
      rfl
    have hd : dedupF ([r, { r with sales_amount := some 0 }].map fillna)
        = [fillna r] := by
      show dedupF [fillna r, fillna { r with sales_amount := some 0 }]
        = [fillna r]
      rw [hfe]
      exact hpair (fillna r)
    refine ⟨hd, ?_⟩
    rw [duplicatesRemoved, hd]
    rfl
  · intro h
    have hfe : fillna { r with state := some "UNKNOWN" } = fillna r := by
      rw [fillna, fillna, h]
      rfl
    have hd : dedupF ([r, { r with state := some "UNKNOWN" }].map fillna)
        = [fillna r] := by
      show dedupF [fillna r, fillna { r with state := some "UNKNOWN" }]
        = [fillna r]
      rw [hfe]
      exact hpair (fillna r)
    refine ⟨hd, ?_⟩
    rw [duplicatesRemoved, hd]
    rfl

/-- C10 witness: a concrete missing-amount row and its zero-amount twin
collapse to one row with a duplicates-removed count of one. -/
theorem C10_null_fill_then_collapse_witness :
    dedupF ([exRowNullAmt,
        { exRowNullAmt with sales_amount := some 0 }].map fillna)
      = [fillna exRowNullAmt] ∧
    duplicatesRemoved [exRowNullAmt,
        { exRowNullAmt with sales_amount := some 0 }] = 1 :=
  (C10_null_fill_then_collapse exRowNullAmt).1 rfl
